import Mathlib

/-!
Verification of `src/gpuscan.c` (PG-Strom GpuScan): a shallow embedding of
the plan-info form/deform pair, the qualifier code generator, the task
factory, the parallel block-range reservation, the task executor's error
classification and statistics updates, and the CPU-fallback re-evaluator,
together with theorems settling the specification claims about them.

Machine integers (`cl_uint`, `BlockNumber`, `size_t`) are modelled as `Nat`;
none of the verified paths exercises overflow.  `InvalidBlockNumber` is
modelled by `Option Nat` (`none` = invalid).  External collaborators that are
not part of `src/` (the CUDA kernel, the columnar-cache lookup, the host
expression evaluator, alignment macros) are modelled from the specification
and marked as such in their doc comments.
-/

set_option autoImplicit false

namespace GpuScan

/-! ## Plan-node private data: `form_gpuscan_info` / `deform_gpuscan_info` -/

/-- A PostgreSQL `Node` stored in a `CustomScan` private list: either a
`String` node made by `makeString`, an `Integer` node made by `makeInteger`,
or a raw node pointer (a `List *` such as `ccache_refs`); `α` is the type of
such raw nodes. -/
inductive PNode (α : Type) where
  | pstr (s : String)
  | pint (n : Nat)
  | pnode (x : α)
  deriving DecidableEq

/-- Embedding of `strVal`: reads the payload of a `String` node. -/
def strVal {α : Type} : PNode α → Option String
  | .pstr s => some s
  | _ => none

/-- Embedding of `intVal`: reads the payload of an `Integer` node. -/
def intVal {α : Type} : PNode α → Option Nat
  | .pint n => some n
  | _ => none

/-- Reads a raw node stored directly in the list (the untagged
`list_nth(privs, i)` access used for `ccache_refs` and the expression
lists). -/
def nodeVal {α : Type} : PNode α → Option α
  | .pnode x => some x
  | _ => none

/-- The `GpuScanInfo` structure (gpuscan.c lines 32-42); `α` stands for the
planner `List *` payloads (`ccache_refs`, `used_params`, `dev_quals`). -/
structure GpuScanInfo (α : Type) where
  kern_source : String
  extra_flags : Nat
  proj_tuple_sz : Nat
  proj_extra_sz : Nat
  nrows_per_block : Nat
  ccache_refs : α
  used_params : α
  dev_quals : α
  deriving DecidableEq

/-- The two private lists of a `CustomScan` node that `form_gpuscan_info`
fills in (`custom_private` and `custom_exprs`). -/
structure CustomScanPrivate (α : Type) where
  custom_private : List (PNode α)
  custom_exprs : List (PNode α)
  deriving DecidableEq

/-- Embedding of `form_gpuscan_info` (gpuscan.c lines 44-61): the successive
`lappend` calls build the two lists in order. -/
def form_gpuscan_info {α : Type} (g : GpuScanInfo α) : CustomScanPrivate α :=
  { custom_private :=
      [ .pstr g.kern_source
      , .pint g.extra_flags
      , .pint g.proj_tuple_sz
      , .pint g.proj_extra_sz
      , .pint g.nrows_per_block
      , .pnode g.ccache_refs ]
  , custom_exprs :=
      [ .pnode g.used_params
      , .pnode g.dev_quals ] }

/-- Embedding of `deform_gpuscan_info` (gpuscan.c lines 63-82): reads the
private lists back positionally; extraction of a field of the wrong node
kind (which would be undefined behaviour in C) is modelled by `none`. -/
def deform_gpuscan_info {α : Type} (cs : CustomScanPrivate α) :
    Option (GpuScanInfo α) := do
  let ks ← cs.custom_private.get? 0 >>= strVal
  let ef ← cs.custom_private.get? 1 >>= intVal
  let pts ← cs.custom_private.get? 2 >>= intVal
  let pes ← cs.custom_private.get? 3 >>= intVal
  let nrpb ← cs.custom_private.get? 4 >>= intVal
  let ccr ← cs.custom_private.get? 5 >>= nodeVal
  let up ← cs.custom_exprs.get? 0 >>= nodeVal
  let dq ← cs.custom_exprs.get? 1 >>= nodeVal
  pure { kern_source := ks
       , extra_flags := ef
       , proj_tuple_sz := pts
       , proj_extra_sz := pes
       , nrows_per_block := nrpb
       , ccache_refs := ccr
       , used_params := up
       , dev_quals := dq }

/-! ## Task executor: error classification (gpuscan.c lines 2969-3021) -/

/-- Device-side error codes distinguished by `gpuscan_process_task`:
`StromError_Success`, `StromError_CpuReCheck`, `StromError_DataStoreNoSpace`,
and every other (fatal) code. -/
inductive StromError where
  | success
  | cpuReCheck
  | dataStoreNoSpace
  | other (n : Nat)
  deriving DecidableEq

/-- Error-related outcome of one completed task: the task's `kerror` field
after classification and its `cpu_fallback` flag. -/
structure TaskErrorState where
  kerror : StromError
  cpu_fallback : Bool
  deriving DecidableEq

/-- Embedding of the error classification in `gpuscan_process_task`
(gpuscan.c lines 2974-3021): success keeps the task unflagged; with CPU
fallback enabled, `CpuReCheck` and `DataStoreNoSpace` clear `task.kerror`
(the `memset` at line 2989) and set `cpu_fallback`; every other code leaves
`task.kerror` as returned by the kernel. -/
def gpuscan_task_classify (cpu_fallback_enabled : Bool) (e : StromError) :
    TaskErrorState :=
  if e = .success then
    { kerror := .success, cpu_fallback := false }
  else if cpu_fallback_enabled ∧ (e = .cpuReCheck ∨ e = .dataStoreNoSpace) then
    { kerror := .success, cpu_fallback := true }
  else
    { kerror := e, cpu_fallback := false }

/-- A task whose `kerror` stays non-success after `gpuscan_process_task` is
surfaced to the caller as a query-level (fatal) error. -/
def task_is_fatal (t : TaskErrorState) : Bool :=
  t.kerror ≠ .success

/-! ## Task executor: NVMe write-back on CPU fallback (lines 2992-3018) -/

/-- Embedding of the guard at gpuscan.c lines 2996-2997: inside the
recoverable-error branch the device-to-host write-back of source-chunk
blocks is issued only when `gscan->with_nvme_strom` holds and
`pds_dst->nblocks_uncached > 0` (note: the destination chunk's counter). -/
def gpuscan_fallback_writeback_cond (with_nvme_strom : Bool)
    (pds_dst_nblocks_uncached : Nat) : Bool :=
  with_nvme_strom && decide (0 < pds_dst_nblocks_uncached)

/-- Embedding of the write-back size at gpuscan.c line 3004: the copy, when
issued, transfers `pds_src->nblocks_uncached * BLCKSZ` bytes back into the
source chunk. -/
def gpuscan_fallback_writeback_nbytes (pds_src_nblocks_uncached BLCKSZ : Nat) :
    Nat :=
  pds_src_nblocks_uncached * BLCKSZ

/-- Modelled from the spec: the executor must "synchronously copy those pages
back to host memory" whenever "a bulk storage transfer left some pages only
device-resident", i.e. whenever the task ran with the bulk-transfer strategy
and the *source* chunk still has uncached blocks.  This is the guard the
specification requires; the C guard above consults the destination chunk
instead. -/
def spec_fallback_writeback_cond (with_nvme_strom : Bool)
    (pds_src_nblocks_uncached : Nat) : Bool :=
  with_nvme_strom && decide (0 < pds_src_nblocks_uncached)

/-- Embedding of `gpuscan_create_task` lines 2224-2225: a freshly created
task runs with the bulk-transfer (NVMe-Strom) strategy exactly when the
source chunk is block-format and has uncached blocks. -/
def gpuscan_task_with_nvme_strom (src_is_block : Bool)
    (pds_src_nblocks_uncached : Nat) : Bool :=
  src_is_block && decide (0 < pds_src_nblocks_uncached)

/-! ## Code generator for the qualifier (`codegen_gpuscan_quals`) -/

/-- One emitted operation of the generated tuple-layout predicate body
(gpuscan.c lines 548-647): either the direct `kern_get_datum_tuple` seek
used in the single-variable case, or the `EXTRACT_HEAP_TUPLE` forward-pass
markers and per-attribute loads of the general case. -/
inductive EmitOp where
  | seekLoad (attno : Nat)
  | extractBegin
  | loadVar (attno : Nat)
  | extractNext
  | extractEnd
  deriving DecidableEq

/-- Return expression of a generated predicate function: the literal `true`
for an absent qualifier, or `EVAL(expr_code)` otherwise (gpuscan.c line
671). -/
inductive QualsRet where
  | rtrue
  | reval
  deriving DecidableEq

/-- Generated output of `codegen_gpuscan_quals` for the two physical
layouts: the body of `gpuscan_quals_eval` (tuple layout), the attribute
loads of `gpuscan_quals_eval_column` (column layout), and the shared return
expression. -/
structure GenQuals where
  tupleOps : List EmitOp
  columnLoads : List Nat
  ret : QualsRet
  deriving DecidableEq

/-- Embedding of `varattno_max` (gpuscan.c lines 586-603): the fold of
`Max` over the referenced attribute numbers. -/
def varattno_max (used_vars : List Nat) : Nat :=
  used_vars.foldl max 0

/-- One step of the forward pass (gpuscan.c lines 611-643): at attribute
position `anum`, emit one load if some referenced variable has this
attribute number (the inner `foreach` breaks after the first match), then
advance the tuple cursor unless this was the last position. -/
def forwardPassStep (used_vars : List Nat) (maxA anum : Nat) : List EmitOp :=
  (if anum ∈ used_vars then [EmitOp.loadVar anum] else []) ++
  (if anum < maxA then [EmitOp.extractNext] else [])

/-- The whole forward pass: positions `1 .. varattno_max` in ascending
order. -/
def forwardPassOps (used_vars : List Nat) (maxA : Nat) : List EmitOp :=
  ((List.range maxA).map (· + 1)).flatMap (forwardPassStep used_vars maxA)

/-- Embedding of `codegen_gpuscan_quals` (gpuscan.c lines 502-674), at the
level of the emitted operations.  The input is `none` when `dev_quals` is
null (line 518 jumps straight to the output), and otherwise the list of
attribute numbers of `context->used_vars` collected while walking the
expression.  With at most one referenced variable the single-seek form is
emitted (lines 548-583); otherwise the declarations are followed by one
`EXTRACT_HEAP_TUPLE` forward pass (lines 584-647). -/
def codegen_gpuscan_quals (dev_quals : Option (List Nat)) : GenQuals :=
  match dev_quals with
  | none =>
      { tupleOps := [], columnLoads := [], ret := .rtrue }
  | some used_vars =>
      if used_vars.length ≤ 1 then
        { tupleOps := used_vars.map EmitOp.seekLoad
        , columnLoads := used_vars
        , ret := .reval }
      else
        let maxA := varattno_max used_vars
        { tupleOps :=
            EmitOp.extractBegin ::
              (forwardPassOps used_vars maxA ++ [EmitOp.extractEnd])
        , columnLoads :=
            ((List.range maxA).map (· + 1)).filter (· ∈ used_vars)
        , ret := .reval }

/-- Attribute loads appearing in a generated tuple-layout body, in emission
order (both the seek form and the forward-pass form). -/
def tupleLoadsOf (ops : List EmitOp) : List Nat :=
  ops.filterMap fun op =>
    match op with
    | .seekLoad a => some a
    | .loadVar a => some a
    | _ => none

/-! ## Task factory (`gpuscan_create_task`, gpuscan.c lines 2168-2242) -/

/-- Physical layout tag of a data-store chunk (`KDS_FORMAT_ROW`,
`KDS_FORMAT_BLOCK`, `KDS_FORMAT_COLUMN`). -/
inductive KDSFormat where
  | row
  | block
  | column
  deriving DecidableEq

/-- Shape of a freshly constructed `GpuScanTask`: the optional destination
chunk (`some length` = a `PDS_create_row` chunk of that byte length),
`nresults`, the `nrooms` field written into `kern_resultbuf`, and whether
`gscan->kresults` was bound (the index-only result protocol, line 2238). -/
structure GpuScanTaskShape where
  pds_dst : Option Nat
  nresults : Nat
  kresults_nrooms : Nat
  kresults_bound : Bool
  deriving DecidableEq

/-- Destination-buffer length computed at gpuscan.c lines 2188-2201.
`align` models `STROMALIGN` (defined outside `src/`, kept as a parameter);
`kds_head_sz` models `offsetof(kern_data_store, colmeta[natts])` for the
scan tuple descriptor (likewise a layout constant from outside `src/`).
`sizeof(cl_uint)` is 4.  The C code computes the last term as
`(Size)(1.2 * proj_tuple_sz * ntuples)` in `double` arithmetic; it is
modelled exactly as `6 * proj_tuple_sz * ntuples / 5` truncated (`Nat`
division). -/
def gpuscan_dst_length (align : Nat → Nat) (kds_head_sz : Nat)
    (fmt : KDSFormat) (nitems nrows_per_block proj_tuple_sz : Nat) : Nat :=
  let ntuples := if fmt = .block then nitems * nrows_per_block else nitems
  align kds_head_sz + align (4 * ntuples) +
    align (6 * proj_tuple_sz * ntuples / 5)

/-- Embedding of the destination-allocation decision of
`gpuscan_create_task` (gpuscan.c lines 2182-2239): a row-format source with
no device projection gets an index-only result buffer of `nitems` rooms and
no destination chunk; every other combination gets a destination chunk of
`gpuscan_dst_length` bytes and an empty result buffer. -/
def gpuscan_create_task (align : Nat → Nat) (kds_head_sz : Nat)
    (fmt : KDSFormat) (dev_projection : Bool)
    (nitems nrows_per_block proj_tuple_sz : Nat) : GpuScanTaskShape :=
  if fmt = .row ∧ dev_projection = false then
    { pds_dst := none
    , nresults := nitems
    , kresults_nrooms := nitems
    , kresults_bound := true }
  else
    { pds_dst :=
        some (gpuscan_dst_length align kds_head_sz fmt
                nitems nrows_per_block proj_tuple_sz)
    , nresults := 0
    , kresults_nrooms := 0
    , kresults_bound := false }

/-- The destination capacity as the claim states it:
`⌈1.2 × average-projected-tuple-size × expected-row-count⌉`, written with
exact rational arithmetic (`⌈6·sz·n/5⌉`). -/
def claimed_dst_capacity (proj_tuple_sz ntuples : Nat) : Nat :=
  (6 * proj_tuple_sz * ntuples + 4) / 5

/-- A concrete model of `STROMALIGN` (16-byte alignment) used to evaluate
the embedding at concrete inputs. -/
def align16 (x : Nat) : Nat :=
  16 * ((x + 15) / 16)

/-! ## CPU fallback re-evaluator (`gpuscan_next_tuple_fallback`) -/

section Fallback

variable {α : Type}

/-- Application of `base_proj` (gpuscan.c lines 2710-2725): with no
projection the slot is returned unchanged, otherwise `ExecProject` runs the
projection. -/
def applyProj (proj : Option (α → α)) (t : α) : α :=
  match proj with
  | none => t
  | some p => p t

/-- Evaluation of `gss->dev_quals` by `ExecQual` (gpuscan.c lines
2692-2699): a null qualifier accepts every tuple. -/
def evalQuals (quals : Option (α → Bool)) (t : α) : Bool :=
  match quals with
  | none => true
  | some q => q t

/-- Embedding of draining one fallback task through repeated
`gpuscan_next_tuple_fallback` calls (gpuscan.c lines 2673-2727): each call
fetches the next tuple of the *source* chunk; a tuple rejected by the
qualifier adds 1 to the shared `nitems_filtered` counter and retries; a
passing tuple is projected and returned.  The result is the list of
returned tuples (in order) and the final counter value. -/
def gpuscan_fallback_drain (quals : Option (α → Bool))
    (proj : Option (α → α)) :
    List α → Nat → List α × Nat
  | [], counter => ([], counter)
  | t :: ts, counter =>
    if evalQuals quals t then
      let rest := gpuscan_fallback_drain quals proj ts counter
      (applyProj proj t :: rest.1, rest.2)
    else
      gpuscan_fallback_drain quals proj ts (counter + 1)

/-- Modelled from the spec: the generated kernel
(`gpuscan_exec_quals_row/block/column`, compiled from the generator's output
and not part of `src/`) reports `nitems_in` = number of source rows and
`nitems_out` = number of rows passing the device predicate, and materializes
exactly the passing rows (projected) into the destination chunk or result
index. -/
def gpuscan_kernel_counters (quals : Option (α → Bool)) (chunk : List α) :
    Nat × Nat :=
  (chunk.length, (chunk.filter (evalQuals quals)).length)

/-- Embedding of the success-path statistics update of
`gpuscan_process_task` (gpuscan.c lines 2980-2981): atomically add
`nitems_in - nitems_out` to the shared `nitems_filtered` counter. -/
def gpuscan_success_stat_add (counter nitems_in nitems_out : Nat) : Nat :=
  counter + (nitems_in - nitems_out)

/-- One chunk processed end to end on one of the two paths.  On the
accelerated path the outputs are the kernel-materialized passing rows and
the counter is bumped once by `nitems_in - nitems_out`; on the CPU-fallback
path the outputs and counter come from `gpuscan_fallback_drain`. -/
def gpuscan_run_chunk (quals : Option (α → Bool)) (proj : Option (α → α))
    (fallback : Bool) (chunk : List α) (counter : Nat) : List α × Nat :=
  if fallback then
    gpuscan_fallback_drain quals proj chunk counter
  else
    let nio := gpuscan_kernel_counters quals chunk
    ((chunk.filter (evalQuals quals)).map (applyProj proj),
     gpuscan_success_stat_add counter nio.1 nio.2)

/-- A whole scan: every chunk processed on its own (per-chunk chosen) path,
outputs concatenated, the shared counter threaded through. -/
def gpuscan_run_chunks (quals : Option (α → Bool)) (proj : Option (α → α)) :
    List (Bool × List α) → Nat → List α × Nat
  | [], counter => ([], counter)
  | (fb, chunk) :: rest, counter =>
    let r := gpuscan_run_chunk quals proj fb chunk counter
    let rs := gpuscan_run_chunks quals proj rest r.2
    (r.1 ++ rs.1, rs.2)

end Fallback

/-! ## Device qualifier expressions and the fallback variable remap -/

/-- A PostgreSQL expression node at the granularity
`fixup_varnode_to_origin` distinguishes: `Var` leaves carrying a 1-based
attribute number, constants, and opaque one- and two-argument function
nodes standing for every other expression node (operators, function calls,
boolean connectives — `expression_tree_mutator` treats them all uniformly
and substitutes only at `Var` leaves). -/
inductive PGExpr (α : Type) where
  | var (attno : Nat)
  | const (v : α)
  | func1 (f : α → α) (e : PGExpr α)
  | func2 (f : α → α → α) (e₁ e₂ : PGExpr α)

/-- Evaluation of an expression against a tuple, the tuple being its
1-based attribute-indexed contents (the host executor's `ExecEvalExpr`,
outside `src/`, modelled from the spec's host `evaluate(expr, tuple)`
interface). -/
def evalPGExpr {α : Type} (t : Nat → α) : PGExpr α → α
  | .var attno => t attno
  | .const v => v
  | .func1 f e => f (evalPGExpr t e)
  | .func2 f e₁ e₂ => f (evalPGExpr t e₁) (evalPGExpr t e₂)

/-- Embedding of `fixup_varnode_to_origin` (gpuscan.c lines 1628-1654).
When `custom_scan_tlist` is present, a `Var` node (whose `varattno` indexes
the tlist, 1-based, per the asserts at lines 1643-1645) is replaced by a
copy of the *whole expression* of that tlist entry
(`copyObject(tle->expr)`, line 1648); with no tlist the `Var` is kept.
Every other node recurses over its children
(`expression_tree_mutator`, lines 1652-1653). -/
def fixup_varnode_to_origin {α : Type} (tlist : Option (List (PGExpr α))) :
    PGExpr α → PGExpr α
  | .var attno =>
      match tlist with
      | none => .var attno
      | some tl => tl.getD (attno - 1) (.var attno)
  | .const v => .const v
  | .func1 f e => .func1 f (fixup_varnode_to_origin tlist e)
  | .func2 f e₁ e₂ =>
      .func2 f (fixup_varnode_to_origin tlist e₁)
        (fixup_varnode_to_origin tlist e₂)

/-- All `Var` attribute numbers of a qualifier lie in `1 .. n` — the
well-formedness the code asserts at gpuscan.c lines 1644-1645
(`varattno >= 1 && varattno <= list_length(custom_scan_tlist)`). -/
def qualVarsOk {α : Type} (n : Nat) : PGExpr α → Bool
  | .var attno => decide (1 ≤ attno) && decide (attno ≤ n)
  | .const _ => true
  | .func1 _ e => qualVarsOk n e
  | .func2 _ e₁ e₂ => qualVarsOk n e₁ && qualVarsOk n e₂

/-- The device-projected row shape, following the spec: after device
projection, device column `attno` (1-based) holds the value of the
`attno`-th `custom_scan_tlist` entry evaluated on the original tuple. -/
def deviceView {α : Type} (tlist : List (PGExpr α)) (t : Nat → α) :
    Nat → α :=
  fun attno =>
    match tlist.get? (attno - 1) with
    | some e => evalPGExpr t e
    | none => t attno

/-- The conjunction of the (implicitly ANDed) device qualifiers after the
fallback fixup, as installed into `gss->dev_quals` by `ExecInitGpuScan`
(gpuscan.c lines 1782-1791): every qualifier is remapped back to the
original tuple layout by `fixup_varnode_to_origin` and the list is
evaluated as a conjunction (`make_ands_explicit` + `ExecQual`), `asBool`
standing for the datum-to-boolean reading of each clause's value. -/
def fallbackQuals {α : Type} (asBool : α → Bool)
    (tlist : Option (List (PGExpr α))) (dev_quals : List (PGExpr α))
    (t : Nat → α) : Bool :=
  (dev_quals.map (fixup_varnode_to_origin tlist)).all
    (fun e => asBool (evalPGExpr t e))

/-- Which chunk a drained result tuple is read from. -/
inductive TupleSource where
  | sourceChunk
  | destChunk
  | sourceChunkByIndex
  deriving DecidableEq

/-- Embedding of the dispatch in `gpuscan_next_tuple` (gpuscan.c lines
2732-2749): a task flagged `cpu_fallback` is drained from its source chunk
via the fallback re-evaluator; otherwise results come from the destination
chunk when one exists, or from the result-index over the source chunk. -/
def gpuscan_next_tuple_source (cpu_fallback : Bool) (has_pds_dst : Bool) :
    TupleSource :=
  if cpu_fallback then .sourceChunk
  else if has_pds_dst then .destChunk
  else .sourceChunkByIndex

/-! ## Parallel block-range reservation (`gpuscan_parallel_nextpage`) -/

/-- Shared parallel-scan cursor state (`ParallelHeapScanDesc`): the next
block to hand out (`none` models `InvalidBlockNumber`) and the recorded
scan start block.  The embedding covers the critical section at gpuscan.c
lines 2306-2361, entered after `phs_startblock` has been initialized. -/
structure PHScanState where
  phs_cblock : Option Nat
  phs_startblock : Nat
  deriving DecidableEq

/-- Result of the columnar-cache lookup `pgstrom_ccache_get_chunk` for one
aligned chunk base: no chunk, an empty chunk, or a valid chunk (modelled
from the spec's `try_get_cached_chunk(range) -> Chunk | none` interface;
the cache itself is outside `src/`). -/
inductive CCLook where
  | miss
  | empty
  | valid
  deriving DecidableEq

/-- Reservation handed back by one `gpuscan_parallel_nextpage` call: the
first reserved block (`none` = end of scan), the number of reserved blocks,
whether a columnar-cache chunk was returned instead of raw blocks, and the
shared state after the critical section. -/
structure NextPageResult where
  page : Option Nat
  nr_blocks : Nat
  cc_loaded : Bool
  state : PHScanState
  deriving DecidableEq

/-- Segment trimming (gpuscan.c lines 2312-2314): a multi-block read must
not cross a `RELSEG_SIZE` boundary. -/
def seg_trim (RS page nr : Nat) : Nat :=
  if page / RS ≠ (page + nr - 1) / RS then RS - page % RS else nr

/-- Relation-end trimming (gpuscan.c lines 2315-2317). -/
def relend_trim (N page nr : Nat) : Nat :=
  if N < page + nr then N - page else nr

/-- Start-block trimming (gpuscan.c lines 2318-2321): the range must not
run across the recorded scan start. -/
def start_trim (S page nr : Nat) : Nat :=
  if page < S ∧ S ≤ page + nr then S - page else nr

/-- The aligned columnar-cache chunk base ahead of `page` (gpuscan.c line
2325).  The C computes `(page + CCACHE_CHUNK_NBLOCKS-1) & ~(CCACHE_CHUNK_NBLOCKS-1)`
with `CCACHE_CHUNK_NBLOCKS` a power of two; for such a divisor the mask is
exactly rounding up to the next multiple of `CH`. -/
def cc_base (CH page : Nat) : Nat :=
  CH * ((page + CH - 1) / CH)

/-- The empty-chunk skip loop (gpuscan.c lines 2341-2349).  The worker holds
a cache chunk whose emptiness is `isEmpty` and the shared cursor stands at
`cur`; an empty chunk is dropped and the next aligned base is probed until
either the lookup misses (the cursor is left as is and no chunk is in hand)
or a non-empty chunk is found.  `fuel` bounds the iteration; the cache is
finite so any `fuel` past the last cached base is enough. -/
def cc_skip_empty (cc : Nat → CCLook) (CH : Nat) :
    Nat → Bool → Nat → Bool × Nat
  | _, false, cur => (true, cur)
  | 0, true, cur => (false, cur)
  | fuel + 1, true, cur =>
    match cc cur with
    | .miss => (false, cur)
    | .empty => cc_skip_empty cc CH fuel true (cur + CH)
    | .valid => cc_skip_empty cc CH fuel false (cur + CH)

/-- The fully trimmed raw-block reservation size (gpuscan.c lines
2311-2322): the caller's request after segment, relation-end and
start-block trimming. -/
def gpuscan_reserved_nr (RS N S nr0 page : Nat) : Nat :=
  start_trim S page (relend_trim N page (seg_trim RS page nr0))

/-- The columnar-cache guard (gpuscan.c lines 2326-2332, folded together
with the `cc_chunk != NULL` test of line 2333): the cache is consulted and
hit when `ccache_refs` is set, the aligned base lies inside the reserved
raw range, the cached chunk does not contain the recorded start block, the
chunk fits inside the relation, and the lookup at the base succeeds. -/
def cc_hit (CH N S : Nat) (use_cc : Bool) (cc : Nat → CCLook)
    (page nr3 : Nat) : Bool :=
  use_cc && decide (page ≤ cc_base CH page)
    && decide (cc_base CH page ≤ page + nr3)
    && (decide (S ≤ cc_base CH page) || decide (cc_base CH page + CH ≤ S))
    && decide (cc_base CH page + CH ≤ N)
    && decide (cc (cc_base CH page) ≠ .miss)

/-- The reservation size handed back (gpuscan.c line 2335 in the cache-hit
case, otherwise the trimmed raw size). -/
def gpuscan_nextpage_nr (RS CH N : Nat) (use_cc : Bool) (cc : Nat → CCLook)
    (S nr0 page : Nat) : Nat :=
  if cc_hit CH N S use_cc cc page (gpuscan_reserved_nr RS N S nr0 page) then
    cc_base CH page - page
  else
    gpuscan_reserved_nr RS N S nr0 page

/-- The cache probe including the empty-chunk skip loop: whether a cache
chunk ends up loaded and where the skip loop leaves the shared cursor. -/
def gpuscan_nextpage_probe (RS CH N : Nat) (use_cc : Bool)
    (cc : Nat → CCLook) (fuel S nr0 page : Nat) : Bool × Nat :=
  if cc_hit CH N S use_cc cc page (gpuscan_reserved_nr RS N S nr0 page) then
    cc_skip_empty cc CH fuel (cc (cc_base CH page) = .empty)
      (cc_base CH page + CH)
  else
    (false, 0)

/-- The advanced cursor before wraparound: the loop's cursor when a cache
chunk is in hand, and `page + nr_blocks` otherwise (gpuscan.c lines
2336-2353; line 2352 resets the cursor to `page + nr_blocks` whenever no
chunk survived the lookup and skip loop). -/
def gpuscan_nextpage_cursor (RS CH N : Nat) (use_cc : Bool)
    (cc : Nat → CCLook) (fuel S nr0 page : Nat) : Nat :=
  if (gpuscan_nextpage_probe RS CH N use_cc cc fuel S nr0 page).1 then
    (gpuscan_nextpage_probe RS CH N use_cc cc fuel S nr0 page).2
  else
    page + gpuscan_nextpage_nr RS CH N use_cc cc S nr0 page

/-- Wraparound and termination of the advanced cursor (gpuscan.c lines
2355-2361): a cursor at or past the relation end wraps to block 0, and a
cursor landing on the recorded start block becomes `InvalidBlockNumber`. -/
def wrap_cursor (N S c : Nat) : Option Nat :=
  if (if N ≤ c then 0 else c) = S then none
  else some (if N ≤ c then 0 else c)

/-- Embedding of the locked section of `gpuscan_parallel_nextpage`
(gpuscan.c lines 2306-2361).  `RS` is `RELSEG_SIZE`, `CH` is
`CCACHE_CHUNK_NBLOCKS`, `N` is `scan->rs_nblocks`, `use_cc` tells whether
`ccache_refs` is set, `cc` is the columnar-cache lookup, `nr0` the caller's
`nr_blocks`, and `st` the shared cursor state.  An invalid cursor returns
no reservation (line 2307); otherwise the reserved range is trimmed for
segment boundary, relation end and start block, the columnar cache is
probed at the aligned base ahead, and the cursor is advanced, wrapped, and
invalidated when it lands on the start block. -/
def gpuscan_parallel_nextpage_locked (RS CH N : Nat) (use_cc : Bool)
    (cc : Nat → CCLook) (fuel : Nat) (nr0 : Nat) (st : PHScanState) :
    NextPageResult :=
  match st.phs_cblock with
  | none =>
    { page := none, nr_blocks := nr0, cc_loaded := false, state := st }
  | some page =>
    { page := some page
    , nr_blocks :=
        gpuscan_nextpage_nr RS CH N use_cc cc st.phs_startblock nr0 page
    , cc_loaded :=
        (gpuscan_nextpage_probe RS CH N use_cc cc fuel
          st.phs_startblock nr0 page).1
    , state :=
      { phs_cblock :=
          wrap_cursor N st.phs_startblock
            (gpuscan_nextpage_cursor RS CH N use_cc cc fuel
              st.phs_startblock nr0 page)
      , phs_startblock := st.phs_startblock } }

/-! ## Theorems -/

/-- C10: deforming the plan-node private fields produced by forming them is
the identity: `deform_gpuscan_info (form_gpuscan_info info)` recovers every
field of `info` (kern_source, extra_flags, proj_tuple_sz, proj_extra_sz,
nrows_per_block, ccache_refs, used_params, dev_quals). -/
theorem deform_form_gpuscan_info_id {α : Type} (g : GpuScanInfo α) :
    deform_gpuscan_info (form_gpuscan_info g) = some g :=
  rfl

/-- C7: for a null/absent device predicate the code generator emits, for
both the tuple layout and the column layout, a predicate function with no
attribute loads whose body unconditionally returns `true`. -/
theorem codegen_gpuscan_quals_empty_pred :
    (codegen_gpuscan_quals none).ret = QualsRet.rtrue ∧
    (codegen_gpuscan_quals none).tupleOps = [] ∧
    (codegen_gpuscan_quals none).columnLoads = [] := by
  refine ⟨rfl, rfl, rfl⟩

/-- C2: evaluation of the write-back logic at the failing input.  A task
created from a block-format source chunk with 3 uncached blocks runs with
the bulk-transfer strategy, and the spec requires the device-to-host
write-back of those blocks before the fallback path runs; but the guard the
code evaluates reads the *destination* chunk's uncached-block counter, which
is 0 for the freshly created row-format destination, so the write-back
(which would copy `3 * BLCKSZ = 24576` bytes of the source chunk) is
skipped. -/
theorem gpuscan_fallback_writeback_skipped :
    gpuscan_task_with_nvme_strom true 3 = true ∧
    gpuscan_fallback_writeback_cond true 0 = false ∧
    spec_fallback_writeback_cond true 3 = true ∧
    gpuscan_fallback_writeback_nbytes 3 8192 = 24576 := by
  decide

/-- C3: classification of the per-task error code after kernel completion.
Success leaves the task unflagged and non-fatal; with CPU fallback enabled,
`CpuReCheck` and `DataStoreNoSpace` clear the task's error and set its
`cpu_fallback` flag, so the failure is never surfaced; every other
non-success code keeps the task's error and is surfaced as fatal. -/
theorem gpuscan_task_classify_spec (fb : Bool) (e : StromError) :
    (e = .success →
       gpuscan_task_classify fb e = { kerror := .success, cpu_fallback := false } ∧
       task_is_fatal (gpuscan_task_classify fb e) = false) ∧
    (fb = true → (e = .cpuReCheck ∨ e = .dataStoreNoSpace) →
       gpuscan_task_classify fb e = { kerror := .success, cpu_fallback := true } ∧
       task_is_fatal (gpuscan_task_classify fb e) = false) ∧
    (e ≠ .success → (fb = true → e ≠ .cpuReCheck ∧ e ≠ .dataStoreNoSpace) →
       gpuscan_task_classify fb e = { kerror := e, cpu_fallback := false } ∧
       task_is_fatal (gpuscan_task_classify fb e) = true) := by
  refine ⟨?_, ?_, ?_⟩
  · rintro rfl
    exact ⟨rfl, rfl⟩
  · rintro rfl h
    rcases h with rfl | rfl <;> exact ⟨rfl, rfl⟩
  · intro hne hrec
    cases fb
    · cases e with
      | success => exact absurd rfl hne
      | cpuReCheck => exact ⟨rfl, rfl⟩
      | dataStoreNoSpace => exact ⟨rfl, rfl⟩
      | other n => exact ⟨rfl, rfl⟩
    · rcases hrec rfl with ⟨h₁, h₂⟩
      cases e with
      | success => exact absurd rfl hne
      | cpuReCheck => exact absurd rfl h₁
      | dataStoreNoSpace => exact absurd rfl h₂
      | other n => exact ⟨rfl, rfl⟩

/-- Witness for C3: at `fb = true`, `e = CpuReCheck` the classification
clears the error and sets the fallback flag. -/
theorem gpuscan_task_classify_spec_witness :
    gpuscan_task_classify true .cpuReCheck
      = { kerror := .success, cpu_fallback := true } ∧
    task_is_fatal (gpuscan_task_classify true .cpuReCheck) = false :=
  (gpuscan_task_classify_spec true .cpuReCheck).2.1 rfl (Or.inl rfl)

/-- C5: the task factory creates an index-only task (no destination chunk,
result buffer with `nitems` rooms bound into the task) exactly when the
source chunk is row layout (the destination layout) and no device
projection is requested; in every other case it allocates a destination
chunk. -/
theorem gpuscan_create_task_index_only_iff (align : Nat → Nat)
    (kds_head_sz : Nat) (fmt : KDSFormat) (dev_projection : Bool)
    (nitems nrows_per_block proj_tuple_sz : Nat) :
    ((gpuscan_create_task align kds_head_sz fmt dev_projection
        nitems nrows_per_block proj_tuple_sz).pds_dst = none ↔
      (fmt = .row ∧ dev_projection = false)) ∧
    ((fmt = .row ∧ dev_projection = false) →
      (gpuscan_create_task align kds_head_sz fmt dev_projection
        nitems nrows_per_block proj_tuple_sz) =
      { pds_dst := none
      , nresults := nitems
      , kresults_nrooms := nitems
      , kresults_bound := true }) ∧
    (¬(fmt = .row ∧ dev_projection = false) →
      (gpuscan_create_task align kds_head_sz fmt dev_projection
          nitems nrows_per_block proj_tuple_sz).pds_dst =
        some (gpuscan_dst_length align kds_head_sz fmt
                nitems nrows_per_block proj_tuple_sz) ∧
      (gpuscan_create_task align kds_head_sz fmt dev_projection
          nitems nrows_per_block proj_tuple_sz).kresults_bound = false) := by
  unfold gpuscan_create_task
  by_cases h : fmt = KDSFormat.row ∧ dev_projection = false
  · simp [h]
  · simp [h]

/-- Witness for C5: a block-format source chunk always gets a destination
chunk, and a row-format source with no projection never does. -/
theorem gpuscan_create_task_index_only_iff_witness :
    (gpuscan_create_task align16 64 .block false 7 5 11).pds_dst =
      some (gpuscan_dst_length align16 64 .block 7 5 11) ∧
    (gpuscan_create_task align16 64 .row false 7 5 11).pds_dst = none :=
  ⟨((gpuscan_create_task_index_only_iff align16 64 .block false 7 5 11).2.2
      (by simp)).1,
   ((gpuscan_create_task_index_only_iff align16 64 .row false 7 5 11).1).mpr
      ⟨rfl, rfl⟩⟩

/-- Alignment never shrinks: `align16 x` is at least `x`. -/
theorem le_align16 (x : Nat) : x ≤ align16 x := by
  have h := Nat.div_add_mod (x + 15) 16
  have hm : (x + 15) % 16 < 16 := Nat.mod_lt _ (by norm_num)
  unfold align16
  omega

/-- C6 counterexample: at a row-format source with device projection,
`nitems = 10`, `proj_tuple_sz = 10`, header size 64 and 16-byte alignment,
the factory allocates a destination of 240 bytes, not the
`⌈1.2 × 10 × 10⌉ = 120` bytes the claim states. -/
theorem gpuscan_dst_capacity_claim_false :
    (gpuscan_create_task align16 64 .row true 10 1 10).pds_dst
      = some 240 ∧
    claimed_dst_capacity 10 10 = 120 ∧
    (gpuscan_create_task align16 64 .row true 10 1 10).pds_dst ≠
      some (claimed_dst_capacity 10 10) := by
  decide

/-- C6 as amended: when a destination chunk is required, its allocated
length is the sum of the aligned chunk header, an aligned 4-byte-per-row
index, and an aligned `⌊1.2 × proj_tuple_sz × expected-row-count⌋`-byte
data area; for a block-layout source the expected row count is the chunk's
item count multiplied by the estimated rows per block, and (alignment being
inflationary) the allocation always covers the claimed
`⌈1.2 × proj_tuple_sz × expected-row-count⌉` capacity. -/
theorem gpuscan_dst_length_amended (align : Nat → Nat)
    (halign : ∀ x, x ≤ align x)
    (kds_head_sz nitems nrows_per_block proj_tuple_sz : Nat) :
    gpuscan_dst_length align kds_head_sz .block
        nitems nrows_per_block proj_tuple_sz
      = gpuscan_dst_length align kds_head_sz .row
          (nitems * nrows_per_block) nrows_per_block proj_tuple_sz ∧
    gpuscan_dst_length align kds_head_sz .row
        nitems nrows_per_block proj_tuple_sz
      = align kds_head_sz + align (4 * nitems) +
          align (6 * proj_tuple_sz * nitems / 5) ∧
    claimed_dst_capacity proj_tuple_sz nitems ≤
      gpuscan_dst_length align kds_head_sz .row
        nitems nrows_per_block proj_tuple_sz := by
  refine ⟨rfl, rfl, ?_⟩
  have h₁ : claimed_dst_capacity proj_tuple_sz nitems ≤
      6 * proj_tuple_sz * nitems / 5 + 4 * nitems + kds_head_sz := by
    rcases Nat.eq_zero_or_pos nitems with h0 | h0
    · subst h0
      simp [claimed_dst_capacity]
    · have h₂ : (6 * proj_tuple_sz * nitems + 4) / 5 ≤
          (6 * proj_tuple_sz * nitems + 5) / 5 :=
        Nat.div_le_div_right (by omega)
      have h₃ : (6 * proj_tuple_sz * nitems + 5) / 5 =
          6 * proj_tuple_sz * nitems / 5 + 1 :=
        Nat.add_div_right _ (by norm_num)
      have h₄ : 1 ≤ 4 * nitems := by omega
      unfold claimed_dst_capacity
      omega
  have h₅ := halign kds_head_sz
  have h₆ := halign (4 * nitems)
  have h₇ := halign (6 * proj_tuple_sz * nitems / 5)
  have hrow : gpuscan_dst_length align kds_head_sz .row
      nitems nrows_per_block proj_tuple_sz
    = align kds_head_sz + align (4 * nitems) +
        align (6 * proj_tuple_sz * nitems / 5) := rfl
  rw [hrow]
  omega

/-- Witness for C6 (amended): at the 16-byte-alignment model with header 64,
a block source of 7 items and 5 rows per block, tuple size 11. -/
theorem gpuscan_dst_length_amended_witness :
    gpuscan_dst_length align16 64 .block 7 5 11
      = gpuscan_dst_length align16 64 .row 35 5 11 ∧
    claimed_dst_capacity 11 35 ≤ gpuscan_dst_length align16 64 .row 35 5 11 :=
  ⟨(gpuscan_dst_length_amended align16 le_align16 64 7 5 11).1,
   (gpuscan_dst_length_amended align16 le_align16 64 35 5 11).2.2⟩

/-- Characterization of draining one fallback task: the produced tuples are
exactly the projections of the source-chunk tuples passing the qualifier,
in source order, and the shared counter grows by the number of rejected
tuples. -/
theorem gpuscan_fallback_drain_eq {α : Type} (quals : Option (α → Bool))
    (proj : Option (α → α)) (l : List α) (c : Nat) :
    gpuscan_fallback_drain quals proj l c =
      ((l.filter (evalQuals quals)).map (applyProj proj),
       c + (l.length - (l.filter (evalQuals quals)).length)) := by
  induction l generalizing c with
  | nil => simp [gpuscan_fallback_drain]
  | cons t ts ih =>
    have hle : (ts.filter (evalQuals quals)).length ≤ ts.length :=
      List.length_filter_le _ _
    by_cases h : evalQuals quals t
    · simp [gpuscan_fallback_drain, h, ih]
    · simp only [gpuscan_fallback_drain, h, if_false, Bool.false_eq_true,
        List.filter_cons, List.length_cons, ih, Prod.mk.injEq, true_and]
      omega

/-- On either path, one processed chunk satisfies local conservation: final
counter plus produced-row count equals initial counter plus source-row
count. -/
theorem gpuscan_run_chunk_conservation {α : Type}
    (quals : Option (α → Bool)) (proj : Option (α → α)) (fb : Bool)
    (chunk : List α) (c : Nat) :
    (gpuscan_run_chunk quals proj fb chunk c).2 +
      (gpuscan_run_chunk quals proj fb chunk c).1.length =
    c + chunk.length := by
  have hle : (chunk.filter (evalQuals quals)).length ≤ chunk.length :=
    List.length_filter_le _ _
  cases fb
  · simp only [gpuscan_run_chunk, if_false, Bool.false_eq_true,
      gpuscan_kernel_counters, gpuscan_success_stat_add, List.length_map]
    omega
  · simp only [gpuscan_run_chunk, if_true, gpuscan_fallback_drain_eq,
      List.length_map]
    omega

/-- C1: conservation of the shared "rows filtered" counter.  Over any scan
in which each chunk is processed on either the accelerated path (one atomic
add of `nitems_in - nitems_out` on task success) or the CPU-fallback path
(one atomic add of 1 per rejected tuple), the final counter value equals
its initial value plus (total rows in − total rows out); equivalently,
counter growth plus rows out equals rows in. -/
theorem gpuscan_filtered_counter_conservation {α : Type}
    (quals : Option (α → Bool)) (proj : Option (α → α))
    (plan : List (Bool × List α)) (c0 : Nat) :
    (gpuscan_run_chunks quals proj plan c0).2 +
      (gpuscan_run_chunks quals proj plan c0).1.length =
    c0 + (plan.map (fun p => p.2.length)).sum := by
  induction plan generalizing c0 with
  | nil => simp [gpuscan_run_chunks]
  | cons p rest ih =>
    obtain ⟨fb, chunk⟩ := p
    have h₁ := gpuscan_run_chunk_conservation quals proj fb chunk c0
    have h₂ := ih (gpuscan_run_chunk quals proj fb chunk c0).2
    simp only [gpuscan_run_chunks, List.length_append, List.map_cons,
      List.sum_cons]
    omega

/-- A present qualifier evaluates as itself. -/
theorem evalQuals_some {α : Type} (q : α → Bool) : evalQuals (some q) = q :=
  rfl

/-- Undoing the device-projection remap: evaluating a fixed-up expression
against the original tuple equals evaluating the original device expression
against the device-projected view of that tuple — substituting the whole
tlist-entry expression for a `Var` is exactly reading that device column. -/
theorem evalPGExpr_fixup {α : Type} (tl : List (PGExpr α)) (t : Nat → α)
    (e : PGExpr α) :
    evalPGExpr t (fixup_varnode_to_origin (some tl) e) =
      evalPGExpr (deviceView tl t) e := by
  induction e with
  | var attno =>
    show evalPGExpr t (tl.getD (attno - 1) (.var attno)) =
      deviceView tl t attno
    unfold deviceView List.getD
    cases h : tl.get? (attno - 1) <;> simp [h, evalPGExpr]
  | const v => rfl
  | func1 f e ih => simp [fixup_varnode_to_origin, evalPGExpr, ih]
  | func2 f e₁ e₂ ih₁ ih₂ =>
    simp [fixup_varnode_to_origin, evalPGExpr, ih₁, ih₂]

/-- C4: for a task flagged for CPU fallback, (1) the produced tuples are
obtained by walking the task's original input chunk in order, evaluating
the remapped predicate, and projecting exactly the passing tuples; (2) the
remapped predicate agrees, on every original-layout tuple, with the device
predicate evaluated on the device-projected view, i.e. the generator's
column remapping has been undone; (3) the drain source for a fallback task
is the source chunk, never the destination chunk, whether or not a
destination chunk exists.  The hypothesis mirrors the asserts of
`fixup_varnode_to_origin` (gpuscan.c lines 1644-1645): every `Var` of the
device qualifier indexes a `custom_scan_tlist` entry. -/
theorem gpuscan_fallback_reeval_spec {α : Type} (asBool : α → Bool)
    (tlist : List (PGExpr α)) (dev_quals : List (PGExpr α))
    (proj : Option ((Nat → α) → Nat → α))
    (src : List (Nat → α)) (c0 : Nat)
    (hwf : ∀ e ∈ dev_quals, qualVarsOk tlist.length e = true) :
    (gpuscan_fallback_drain
        (some (fallbackQuals asBool (some tlist) dev_quals))
        proj src c0).1
      = (src.filter (fallbackQuals asBool (some tlist) dev_quals)).map
          (applyProj proj) ∧
    (∀ t : Nat → α, fallbackQuals asBool (some tlist) dev_quals t
        = dev_quals.all
            (fun e => asBool (evalPGExpr (deviceView tlist t) e))) ∧
    (∀ has_dst : Bool,
        gpuscan_next_tuple_source true has_dst = .sourceChunk) := by
  refine ⟨?_, ?_, fun _ => rfl⟩
  · rw [gpuscan_fallback_drain_eq, evalQuals_some]
  · intro t
    simp only [fallbackQuals, List.all_map, Function.comp]
    congr 1
    funext e
    simp only [Function.comp_apply]
    rw [evalPGExpr_fixup]

/-- Witness for C4: device qualifier referencing device column 1, whose
tlist entry is a whole computed expression (the sum of original attributes
1 and 2): the remapped qualifier agrees with the device qualifier on the
device view of the identity tuple. -/
theorem gpuscan_fallback_reeval_spec_witness :
    fallbackQuals (fun v : Nat => decide (0 < v))
        (some [PGExpr.func2 (fun a b => a + b) (.var 1) (.var 2),
               PGExpr.var 3])
        [PGExpr.var 1] (fun i => i)
      = ([PGExpr.var 1]).all
          (fun e => (fun v : Nat => decide (0 < v))
            (evalPGExpr
              (deviceView
                [PGExpr.func2 (fun a b => a + b) (.var 1) (.var 2),
                 PGExpr.var 3]
                (fun i => i)) e)) :=
  (gpuscan_fallback_reeval_spec (fun v : Nat => decide (0 < v))
      [PGExpr.func2 (fun a b => a + b) (.var 1) (.var 2), PGExpr.var 3]
      [PGExpr.var 1] none [] 0 (by decide)).2.1 (fun i => i)

/-- Loads contributed by one forward-pass position: one load when the
position is a referenced attribute, none otherwise. -/
theorem tupleLoadsOf_forwardPassStep (used : List Nat) (maxA anum : Nat) :
    tupleLoadsOf (forwardPassStep used maxA anum) =
      if anum ∈ used then [anum] else [] := by
  by_cases h : anum ∈ used <;> by_cases h2 : anum < maxA <;>
    simp [forwardPassStep, tupleLoadsOf, h, h2]

/-- Load extraction distributes over list append. -/
theorem tupleLoadsOf_append (a b : List EmitOp) :
    tupleLoadsOf (a ++ b) = tupleLoadsOf a ++ tupleLoadsOf b :=
  List.filterMap_append a b _

/-- The opening marker of the forward pass contributes no load. -/
theorem tupleLoadsOf_cons_begin (rest : List EmitOp) :
    tupleLoadsOf (EmitOp.extractBegin :: rest) = tupleLoadsOf rest :=
  rfl

/-- The closing marker of the forward pass contributes no load. -/
theorem tupleLoadsOf_extractEnd :
    tupleLoadsOf [EmitOp.extractEnd] = [] :=
  rfl

/-- The forward pass loads exactly the referenced attribute positions of
`1 .. maxA`, in ascending order. -/
theorem tupleLoadsOf_forwardPassOps (used : List Nat) (maxA : Nat) :
    tupleLoadsOf (forwardPassOps used maxA) =
      ((List.range maxA).map (· + 1)).filter (· ∈ used) := by
  unfold forwardPassOps
  generalize (List.range maxA).map (· + 1) = l
  induction l with
  | nil => rfl
  | cons a l ih =>
    rw [List.flatMap_cons, tupleLoadsOf_append,
      tupleLoadsOf_forwardPassStep, ih, List.filter_cons]
    by_cases h : a ∈ used
    · simp [h]
    · simp [h]

/-- The forward pass emits only attribute loads and cursor advances. -/
theorem forwardPassOps_no_extractBegin (used : List Nat) (maxA : Nat) :
    EmitOp.extractBegin ∉ forwardPassOps used maxA := by
  intro hmem
  rw [forwardPassOps, List.mem_flatMap] at hmem
  obtain ⟨a, -, hmem⟩ := hmem
  unfold forwardPassStep at hmem
  by_cases h : a ∈ used <;> by_cases h2 : a < maxA <;> simp [h, h2] at hmem

/-- Every element of a list is bounded by `varattno_max` of that list. -/
theorem le_varattno_max_aux (l : List Nat) (init a : Nat) :
    (a ∈ l → a ≤ l.foldl max init) ∧ init ≤ l.foldl max init := by
  induction l generalizing init with
  | nil => simp
  | cons b l ih =>
    refine ⟨?_, ?_⟩
    · intro hmem
      rcases List.mem_cons.mp hmem with rfl | hmem
      · exact le_trans (le_max_right init a) (ih (max init a)).2
      · exact (ih (max init b)).1 hmem
    · exact le_trans (le_max_left init b) (ih (max init b)).2

/-- C8: variable-load ordering in the generated tuple-layout predicate.
When the qualifier references two or more attributes, the emitted loads are
in strictly ascending attribute order, each referenced attribute is loaded
(and nothing else), and exactly one `EXTRACT_HEAP_TUPLE` forward pass is
opened; when the qualifier references exactly one attribute, a single
direct offset-seek load of that attribute is emitted instead. -/
theorem codegen_gpuscan_quals_load_order (used_vars : List Nat)
    (h2 : 2 ≤ used_vars.length) (hpos : ∀ a ∈ used_vars, 1 ≤ a) :
    (tupleLoadsOf
        (codegen_gpuscan_quals (some used_vars)).tupleOps).Pairwise (· < ·) ∧
    (∀ a, a ∈ tupleLoadsOf (codegen_gpuscan_quals (some used_vars)).tupleOps
        ↔ a ∈ used_vars) ∧
    (codegen_gpuscan_quals (some used_vars)).tupleOps.count
        EmitOp.extractBegin = 1 ∧
    (∀ b : Nat, codegen_gpuscan_quals (some [b]) =
      { tupleOps := [.seekLoad b], columnLoads := [b], ret := .reval }) := by
  have hgt : ¬(used_vars.length ≤ 1) := by omega
  have hops : (codegen_gpuscan_quals (some used_vars)).tupleOps =
      EmitOp.extractBegin ::
        (forwardPassOps used_vars (varattno_max used_vars) ++
          [EmitOp.extractEnd]) := by
    simp [codegen_gpuscan_quals, hgt]
  have hloads : tupleLoadsOf (codegen_gpuscan_quals (some used_vars)).tupleOps
      = ((List.range (varattno_max used_vars)).map (· + 1)).filter
          (· ∈ used_vars) := by
    rw [hops, tupleLoadsOf_cons_begin, tupleLoadsOf_append,
      tupleLoadsOf_extractEnd, List.append_nil]
    exact tupleLoadsOf_forwardPassOps used_vars (varattno_max used_vars)
  refine ⟨?_, ?_, ?_, fun b => rfl⟩
  · rw [hloads]
    have h1 : ((List.range (varattno_max used_vars)).map
        (· + 1)).Pairwise (· < ·) :=
      (List.pairwise_lt_range _).map _
        (fun a b hab => Nat.add_lt_add_right hab 1)
    exact h1.filter _
  · intro a
    rw [hloads, List.mem_filter]
    constructor
    · rintro ⟨-, hdec⟩
      exact of_decide_eq_true hdec
    · intro hmem
      refine ⟨?_, decide_eq_true hmem⟩
      have h1 : 1 ≤ a := hpos a hmem
      have h2 : a ≤ varattno_max used_vars :=
        (le_varattno_max_aux used_vars 0 a).1 hmem
      simp only [List.mem_map, List.mem_range]
      exact ⟨a - 1, by omega, by omega⟩
  · rw [hops]
    rw [List.count_cons_self]
    have hz : (forwardPassOps used_vars (varattno_max used_vars) ++
        [EmitOp.extractEnd]).count EmitOp.extractBegin = 0 := by
      rw [List.count_eq_zero]
      intro hmem
      rcases List.mem_append.mp hmem with h | h
      · exact forwardPassOps_no_extractBegin _ _ h
      · simp at h
    omega

/-- Witness for C8: the qualifier referencing attributes 3 and 1 gets a
single forward pass loading attribute 1 then attribute 3; the qualifier
referencing only attribute 3 gets a direct seek. -/
theorem codegen_gpuscan_quals_load_order_witness :
    tupleLoadsOf (codegen_gpuscan_quals (some [3, 1])).tupleOps = [1, 3] ∧
    (codegen_gpuscan_quals (some [3, 1])).tupleOps.count
        EmitOp.extractBegin = 1 ∧
    codegen_gpuscan_quals (some [3]) =
      { tupleOps := [.seekLoad 3], columnLoads := [3], ret := .reval } := by
  have h := codegen_gpuscan_quals_load_order [3, 1] (by decide)
    (by decide)
  exact ⟨by decide, h.2.2.1, h.2.2.2 3⟩

/-- Segment trimming never yields an empty range. -/
theorem seg_trim_pos (RS page nr : Nat) (hRS : 0 < RS) (hnr : 0 < nr) :
    0 < seg_trim RS page nr := by
  unfold seg_trim
  split
  · have := Nat.mod_lt page hRS
    omega
  · exact hnr

/-- After segment trimming the whole range lies in the segment of its first
block. -/
theorem seg_trim_same_seg (RS page nr : Nat) (hRS : 0 < RS)
    (hnr : 0 < nr) :
    page / RS = (page + seg_trim RS page nr - 1) / RS := by
  unfold seg_trim
  split
  case isTrue h =>
    have hr : page % RS < RS := Nat.mod_lt page hRS
    have harg : page + (RS - page % RS) - 1 = RS * (page / RS) + (RS - 1) := by
      have h1 : RS * (page / RS) + page % RS = page := Nat.div_add_mod page RS
      generalize RS * (page / RS) = t at h1 ⊢
      omega
    rw [harg, Nat.mul_add_div hRS,
      Nat.div_eq_of_lt (show RS - 1 < RS by omega)]
    omega
  case isFalse h =>
    exact not_ne_iff.mp h

/-- Shrinking a range that stays within one segment keeps it within that
segment. -/
theorem same_seg_mono (RS page n m : Nat)
    (h : page / RS = (page + n - 1) / RS) (hm : 0 < m) (hmn : m ≤ n) :
    page / RS = (page + m - 1) / RS := by
  have h₁ : page / RS ≤ (page + m - 1) / RS :=
    Nat.div_le_div_right (by omega)
  have h₂ : (page + m - 1) / RS ≤ (page + n - 1) / RS :=
    Nat.div_le_div_right (by omega)
  omega

/-- Relation-end trimming keeps the range inside the relation. -/
theorem relend_trim_le (N page nr : Nat) (hpage : page < N) :
    page + relend_trim N page nr ≤ N := by
  unfold relend_trim
  split <;> omega

/-- Relation-end trimming never yields an empty range. -/
theorem relend_trim_pos (N page nr : Nat) (hpage : page < N)
    (hnr : 0 < nr) : 0 < relend_trim N page nr := by
  unfold relend_trim
  split <;> omega

/-- Relation-end trimming only shrinks. -/
theorem relend_trim_le_self (N page nr : Nat) :
    relend_trim N page nr ≤ nr := by
  unfold relend_trim
  split <;> omega

/-- Start-block trimming only shrinks. -/
theorem start_trim_le_self (S page nr : Nat) :
    start_trim S page nr ≤ nr := by
  unfold start_trim
  split
  case isTrue h => omega
  case isFalse h => exact le_rfl

/-- A range beginning before the recorded start block never runs across
it. -/
theorem start_trim_nocross (S page nr : Nat) (h : page < S) :
    page + start_trim S page nr ≤ S := by
  unfold start_trim
  split
  case isTrue h2 => omega
  case isFalse h2 =>
    rw [not_and] at h2
    have := h2 h
    omega

/-- Start-block trimming never yields an empty range. -/
theorem start_trim_pos (S page nr : Nat) (hnr : 0 < nr) :
    0 < start_trim S page nr := by
  unfold start_trim
  split <;> omega

/-- The fully trimmed reservation: positive, inside the relation, inside
one segment, and not across the start block. -/
theorem gpuscan_reserved_nr_spec (RS N S nr0 page : Nat) (hRS : 0 < RS)
    (hnr : 0 < nr0) (hpage : page < N) :
    0 < gpuscan_reserved_nr RS N S nr0 page ∧
    page + gpuscan_reserved_nr RS N S nr0 page ≤ N ∧
    page / RS = (page + gpuscan_reserved_nr RS N S nr0 page - 1) / RS ∧
    (page < S → page + gpuscan_reserved_nr RS N S nr0 page ≤ S) := by
  have h₁ := seg_trim_pos RS page nr0 hRS hnr
  have h₂ := seg_trim_same_seg RS page nr0 hRS hnr
  have h₃ := relend_trim_pos N page (seg_trim RS page nr0) hpage h₁
  have h₄ := relend_trim_le N page (seg_trim RS page nr0) hpage
  have h₅ := relend_trim_le_self N page (seg_trim RS page nr0)
  have h₆ := start_trim_pos S page (relend_trim N page (seg_trim RS page nr0)) h₃
  have h₇ := start_trim_le_self S page (relend_trim N page (seg_trim RS page nr0))
  unfold gpuscan_reserved_nr
  refine ⟨h₆, by omega, ?_, fun h => start_trim_nocross S page _ h⟩
  exact same_seg_mono RS page (seg_trim RS page nr0) _ h₂ h₆ (by omega)

/-- The handed-back reservation size never exceeds the trimmed raw size. -/
theorem gpuscan_nextpage_nr_le (RS CH N : Nat) (use_cc : Bool)
    (cc : Nat → CCLook) (S nr0 page : Nat) :
    gpuscan_nextpage_nr RS CH N use_cc cc S nr0 page ≤
      gpuscan_reserved_nr RS N S nr0 page := by
  unfold gpuscan_nextpage_nr
  split
  case isTrue h =>
    unfold cc_hit at h
    simp only [Bool.and_eq_true, decide_eq_true_eq] at h
    omega
  case isFalse h => exact le_rfl

/-- The cursor is invalidated exactly when its post-wraparound value equals
the recorded start block. -/
theorem wrap_cursor_none_iff (N S cur : Nat) (hcurN : cur ≤ N) :
    wrap_cursor N S cur = none ↔
      (cur = N ∧ S = 0) ∨ (cur < N ∧ cur = S) := by
  unfold wrap_cursor
  split_ifs with h1 h2 <;> simp <;> omega

/-- A surviving (non-invalid) cursor stays inside the relation and differs
from the recorded start block. -/
theorem wrap_cursor_some_spec (N S cur c : Nat) (hN : 0 < N)
    (h : wrap_cursor N S cur = some c) : c < N ∧ c ≠ S := by
  unfold wrap_cursor at h
  split_ifs at h with h1 h2 <;> simp at h <;> omega

/-- C9: every block-range reservation taken inside the cursor critical
section starts at the cursor's block and, when non-empty, lies entirely in
one `RELSEG_SIZE` storage segment, never extends past the end of the
relation, and never runs across the recorded scan start block; the advanced
cursor, after wrapping at the relation end, is invalidated exactly when it
reaches the recorded start block (so any surviving cursor differs from the
start block and stays inside the relation), and a worker whose cursor has
been invalidated obtains no further reservation. -/
theorem gpuscan_parallel_nextpage_reservation (RS CH N : Nat)
    (use_cc : Bool) (cc : Nat → CCLook) (fuel nr0 : Nat)
    (st : PHScanState) (page : Nat)
    (hcur : st.phs_cblock = some page)
    (hRS : 0 < RS) (hnr : 0 < nr0) (hseg : nr0 < RS)
    (hpage : page < N) (hS : st.phs_startblock < N) :
    (gpuscan_parallel_nextpage_locked RS CH N use_cc cc fuel nr0 st).page
        = some page ∧
    page + (gpuscan_parallel_nextpage_locked RS CH N use_cc cc fuel nr0
        st).nr_blocks ≤ N ∧
    (0 < (gpuscan_parallel_nextpage_locked RS CH N use_cc cc fuel nr0
        st).nr_blocks →
      page / RS = (page + (gpuscan_parallel_nextpage_locked RS CH N use_cc
        cc fuel nr0 st).nr_blocks - 1) / RS) ∧
    (page < st.phs_startblock →
      page + (gpuscan_parallel_nextpage_locked RS CH N use_cc cc fuel nr0
        st).nr_blocks ≤ st.phs_startblock) ∧
    (∀ c, (gpuscan_parallel_nextpage_locked RS CH N use_cc cc fuel nr0
        st).state.phs_cblock = some c →
      c < N ∧ c ≠ st.phs_startblock) ∧
    ((gpuscan_parallel_nextpage_locked RS CH N use_cc cc fuel nr0
        st).state.phs_cblock = none →
      (gpuscan_parallel_nextpage_locked RS CH N use_cc cc fuel nr0
        (gpuscan_parallel_nextpage_locked RS CH N use_cc cc fuel nr0
          st).state).page = none) ∧
    (use_cc = false →
      ((gpuscan_parallel_nextpage_locked RS CH N use_cc cc fuel nr0
          st).state.phs_cblock = none ↔
        (page + (gpuscan_parallel_nextpage_locked RS CH N use_cc cc fuel
            nr0 st).nr_blocks = N ∧ st.phs_startblock = 0) ∨
        (page + (gpuscan_parallel_nextpage_locked RS CH N use_cc cc fuel
            nr0 st).nr_blocks < N ∧
         page + (gpuscan_parallel_nextpage_locked RS CH N use_cc cc fuel
            nr0 st).nr_blocks = st.phs_startblock))) := by
  obtain ⟨hpos, hle, hsame, hcross⟩ :=
    gpuscan_reserved_nr_spec RS N st.phs_startblock nr0 page hRS hnr hpage
  have hnrle := gpuscan_nextpage_nr_le RS CH N use_cc cc st.phs_startblock
    nr0 page
  have hres : gpuscan_parallel_nextpage_locked RS CH N use_cc cc fuel nr0 st
      = { page := some page
        , nr_blocks :=
            gpuscan_nextpage_nr RS CH N use_cc cc st.phs_startblock nr0 page
        , cc_loaded :=
            (gpuscan_nextpage_probe RS CH N use_cc cc fuel
              st.phs_startblock nr0 page).1
        , state :=
          { phs_cblock :=
              wrap_cursor N st.phs_startblock
                (gpuscan_nextpage_cursor RS CH N use_cc cc fuel
                  st.phs_startblock nr0 page)
          , phs_startblock := st.phs_startblock } } := by
    unfold gpuscan_parallel_nextpage_locked
    rw [hcur]
  rw [hres]
  dsimp only
  refine ⟨rfl, by omega, ?_, fun h => by have := hcross h; omega, ?_, ?_, ?_⟩
  · intro hpos2
    exact same_seg_mono RS page (gpuscan_reserved_nr RS N st.phs_startblock
      nr0 page) _ hsame hpos2 hnrle
  · intro c hc
    exact wrap_cursor_some_spec N st.phs_startblock _ c (by omega) hc
  · intro hnone
    rw [hnone]
    rfl
  · intro hcc
    subst hcc
    have hmiss : cc_hit CH N st.phs_startblock false cc page
        (gpuscan_reserved_nr RS N st.phs_startblock nr0 page) = false := by
      unfold cc_hit
      simp
    have hnrraw : gpuscan_nextpage_nr RS CH N false cc st.phs_startblock
        nr0 page = gpuscan_reserved_nr RS N st.phs_startblock nr0 page := by
      unfold gpuscan_nextpage_nr
      rw [hmiss]
      simp
    have hprobe : gpuscan_nextpage_probe RS CH N false cc fuel
        st.phs_startblock nr0 page = (false, 0) := by
      unfold gpuscan_nextpage_probe
      rw [hmiss]
      simp
    have hcursor : gpuscan_nextpage_cursor RS CH N false cc fuel
        st.phs_startblock nr0 page
        = page + gpuscan_reserved_nr RS N st.phs_startblock nr0 page := by
      unfold gpuscan_nextpage_cursor
      rw [hprobe, hnrraw]
      simp
    rw [hnrraw, hcursor,
      wrap_cursor_none_iff N st.phs_startblock _ (by omega)]

/-- Witness for C9: a worker at block 8 of a 10-block relation with start
block 2, segment size 4 and an 8-block request is trimmed to the 2 blocks
left before the relation end, and the cursor wraps to block 0. -/
theorem gpuscan_parallel_nextpage_reservation_witness :
    (gpuscan_parallel_nextpage_locked 4 4 10 false (fun _ => .miss) 0 3
        { phs_cblock := some 8, phs_startblock := 2 }).page = some 8 ∧
    8 + (gpuscan_parallel_nextpage_locked 4 4 10 false (fun _ => .miss) 0 3
        { phs_cblock := some 8, phs_startblock := 2 }).nr_blocks ≤ 10 :=
  ⟨(gpuscan_parallel_nextpage_reservation 4 4 10 false (fun _ => .miss) 0 3
      { phs_cblock := some 8, phs_startblock := 2 } 8 rfl (by decide)
      (by decide) (by decide) (by decide) (by decide)).1,
   (gpuscan_parallel_nextpage_reservation 4 4 10 false (fun _ => .miss) 0 3
      { phs_cblock := some 8, phs_startblock := 2 } 8 rfl (by decide)
      (by decide) (by decide) (by decide) (by decide)).2.1⟩

end GpuScan
